import Mathlib

/-!
# Verification of the JAX-FEM-vs-PINNs experiment scripts

Shallow embedding of the repository's four scripts:

* `2D_Transient_Heat_Ground_Truth.py` — the FEniCS ground-truth driver:
  a solver cell (load evaluation points from JSON, interpolate the
  initial condition, run a Backward-Euler time-stepping loop calling the
  external nonlinear solver, sample the solution at the evaluation
  points, dump to JSON) followed by a contour-plot cell that re-reads
  both JSON files and saves one contour figure per time entry.
* `util/gen_eval_points.py` — `generate_eval_mesh`, which writes the
  evaluation-points JSON file.
* `util/plot_time-error.py` — the comparison plotting script.
* `test/1D_Poisson_JAX-FEM.py` — the 1D Poisson test with its locally
  defined `Mesh` class.

Machine reals (Python floats) are modelled as `ℚ`; every call into the
external libraries (numpy's `exp`, dolfin's `interpolate` and `solve`) is an
oracle parameter, so theorems hold for every behaviour of the external
library.  File I/O is modelled as an explicit event trace.
-/

namespace HeatRepo

/-- The file paths appearing in the scripts.  Using one constructor per
distinct path of the source keeps path distinctness syntactic:
`evalPointsJson` is `"2D_Transient_Heat_eval_points.json"`,
`solutionPvd k` is `f"./vtu/solution_{k:03d}.pvd"`,
`evalSolutionsJson` is `"2D_Transient_Heat_eval_solutions.json"`,
`pinnsEvaluationJson` is `"PINNs_evaluation.json"`,
`femResultsJson` is `"FEM_results.json"`,
`solvingTimeErrorPng` is `"./fig/solving_time-error.png"`,
`evaluationTimeErrorPng` is `"./fig/evaluation_time-error.png"`,
`contourPng t` is `f"./fig/sol_contour/Ground_Truth/sol_{t:04d}.png"`. -/
inductive FileName
  | evalPointsJson
  | solutionPvd (k : ℕ)
  | evalSolutionsJson
  | pinnsEvaluationJson
  | femResultsJson
  | solvingTimeErrorPng
  | evaluationTimeErrorPng
  | contourPng (t : ℕ)
  deriving DecidableEq

/-- Observable side effects of a script: reading a file, writing a file,
and invoking the external PDE solver. -/
inductive Event
  | readFile (f : FileName)
  | writeFile (f : FileName)
  | solveCall
  deriving DecidableEq

def Event.isRead : Event → Bool
  | .readFile _ => true
  | _ => false

def Event.isWrite : Event → Bool
  | .writeFile _ => true
  | _ => false

/-- The file a write event touches (`none` for non-write events). -/
def Event.writeTarget : Event → Option FileName
  | .writeFile f => some f
  | _ => none

/-- A JSON value, as produced by `json.dump` / consumed by `json.load`.
Numbers are modelled as `ℚ`. -/
inductive Json
  | num (q : ℚ)
  | str (s : String)
  | arr (l : List Json)
  | obj (l : List (String × Json))

/-- `j[k]` on a JSON object: the Python `data["mesh_coord"]` lookup
(`none` models the `KeyError` / `TypeError` path). -/
def Json.getKey : Json → String → Option Json
  | .obj l, k => (l.find? (fun p => p.1 == k)).map (·.2)
  | _, _ => none

/-- Interpret a JSON value as an array. -/
def Json.asArr : Json → Option (List Json)
  | .arr l => some l
  | _ => none

/-- Interpret a JSON value as a number. -/
def Json.asNum : Json → Option ℚ
  | .num q => some q
  | _ => none

end HeatRepo

namespace HeatRepo.GenEval

/-! ## `util/gen_eval_points.py` — `generate_eval_mesh(nx, ny, dt, filename)` -/

/-- `dx = 1.0 / nx`. -/
def dx (nx : ℕ) : ℚ := 1 / nx

/-- `dy = 1.0 / ny` (computed by the source but never used below). -/
def dy (ny : ℕ) : ℚ := 1 / ny

/-- Python `int(q)`: truncation toward zero. -/
def pyInt (q : ℚ) : ℤ := if 0 ≤ q then ⌊q⌋ else ⌈q⌉

/-- `nt = int(1.0 / dt) + 1`. -/
def nt (dt : ℚ) : ℤ := pyInt (1 / dt) + 1

/-- The nested loop building `mesh_coords`: for `i in range(nx+1)`, for
`j in range(ny+1)`, append `[x, y]` with `x = i * dx` and `y = j * dx`
(the source computes `y` with `dx`, not `dy`). -/
def mesh_coords (nx ny : ℕ) : List (ℚ × ℚ) :=
  (List.range (nx + 1)).flatMap fun i : ℕ =>
    (List.range (ny + 1)).map fun j : ℕ => ((i : ℚ) * dx nx, (j : ℚ) * dx nx)

/-- The loop building `dt_coords`: for `k in range(nt)`, append `[k * dt]`. -/
def dt_coords (dt : ℚ) : List (List ℚ) :=
  (List.range (nt dt).toNat).map fun k : ℕ => [(k : ℚ) * dt]

/-- A coordinate pair serialized as the two-element JSON array `[x, y]`. -/
def pointJson (p : ℚ × ℚ) : Json := .arr [.num p.1, .num p.2]

/-- The JSON value dumped by `generate_eval_mesh`:
`{"mesh_coord": {"0": mesh_coords}, "dt_coord": {"0": dt_coords}}`. -/
def generate_eval_mesh (nx ny : ℕ) (dt : ℚ) : Json :=
  .obj [("mesh_coord", .obj [("0", .arr ((mesh_coords nx ny).map pointJson))]),
        ("dt_coord", .obj [("0", .arr ((dt_coords dt).map fun l => .arr (l.map .num)))])]

end HeatRepo.GenEval

namespace HeatRepo.GroundTruth

/-! ## `2D_Transient_Heat_Ground_Truth.py` — the FEM ground-truth driver -/

/-- A point of the plane, as passed to dolfin's `Point(x, y)`. -/
abbrev Pt := ℚ × ℚ

/-- A dolfin `Function` on the function space `V`, observed through its
evaluation at points: `u(Point(x, y))`. -/
abbrev FEMFun := Pt → ℚ

/-- The data the driver extracts from the evaluation-points file:
`mesh_coords = data["mesh_coord"]["0"]` (as coordinate pairs) and
`times = [item[0] for item in data["dt_coord"]["0"]]`. -/
structure EvalPoints where
  mesh_coords : List Pt
  times : List ℚ

/-- One entry of `mesh_coords`, unpacked by `for (x, y) in mesh_coords`:
exactly two numeric coordinates. -/
def parsePoint : Json → Option Pt
  | .arr [x, y] => do pure ((← x.asNum), (← y.asNum))
  | _ => none

/-- One entry of `dt_coords`, unpacked by `item[0]` in the comprehension
`times = [item[0] for item in dt_coords]`. -/
def parseTime : Json → Option ℚ
  | .arr (x :: _) => x.asNum
  | _ => none

/-- A list comprehension over JSON entries, failing if any entry fails
(a Python comprehension raises as soon as one entry raises). -/
def parseList {α : Type} (f : Json → Option α) : List Json → Option (List α)
  | [] => some []
  | x :: xs => do pure ((← f x) :: (← parseList f xs))

/-- The driver's extraction of its input file:
`data["mesh_coord"]["0"]`, `data["dt_coord"]["0"]`, the unpacking of each
coordinate entry as `(x, y)` and of each time entry as `item[0]`. -/
def driverLoad (j : Json) : Option EvalPoints := do
  let mc ← (← (← j.getKey "mesh_coord").getKey "0").asArr
  let dc ← (← (← j.getKey "dt_coord").getKey "0").asArr
  let coords ← parseList parsePoint mc
  let times ← parseList parseTime dc
  pure ⟨coords, times⟩

/-- A Dirichlet boundary condition `DirichletBC(V, Constant(value), boundary)`
on the whole boundary. -/
structure BC where
  value : ℚ

/-- `bc = DirichletBC(V, Constant(0.0), boundary)`: the homogeneous
Dirichlet condition of the driver. -/
def bc : BC := ⟨0⟩

/-- The data determining the Backward-Euler weak form
`R = (u - u_n)*v*dx + dt*dot(grad(u), grad(v))*dx - dt*f*v*dx`
handed to `solve(R == 0, u, bc, J=jac)`: the time step `dt`, the source
time `t` (the source term is `10*sin(pi*x)*sin(pi*y)*cos(2*pi*t)`, so
assigning `t` updates it), and the previous solution `u_n`.  `F` is the
representation of FEM functions (`FEMFun`, or its fallible variant). -/
structure Residual (F : Type) where
  dt : ℚ
  t : ℚ
  u_n : F

/-- The external-library entry points the driver calls, as oracles:
numpy's `exp`, dolfin's `interpolate` onto `V`, and dolfin's nonlinear
`solve` for the residual with the boundary condition applied. -/
structure Ext where
  exp : ℚ → ℚ
  interpolate : (Pt → ℚ) → FEMFun
  solve : Residual FEMFun → BC → FEMFun

/-- The pointwise initial condition of class `InitialCondition`:
`u_0(x, y) = exp(-50*((x-0.5)^2 + (y-0.5)^2))`. -/
def u0exact (exp : ℚ → ℚ) : Pt → ℚ := fun p =>
  exp (-50 * ((p.1 - 1/2)^2 + (p.2 - 1/2)^2))

/-- The driver's mutable state: the constants `t` and `dt`, the unknown
`u`, the previous-step solution `u_n`, the accumulated `sol_list`, and the
trace of I/O and solver events. -/
structure DriverState where
  t : ℚ
  dt : ℚ
  u : FEMFun
  u_n : FEMFun
  sol_list : List (List ℚ)
  events : List Event

/-- The driver before the time loop: read the evaluation-points file,
interpolate the initial condition into `u_n`, initialize `t = dt = 0` and
`u = Function(V)` (zero), write `solution_000.pvd`, and record the `t = 0`
row `sol0 = [u_n(Point(x, y)) for (x, y) in mesh_coords]`. -/
def initPhase (E : Ext) (D : EvalPoints) : DriverState :=
  let u_n := E.interpolate (u0exact E.exp)
  { t := 0
    dt := 0
    u := fun _ => 0
    u_n := u_n
    sol_list := [D.mesh_coords.map (fun p => u_n p)]
    events := [.readFile .evalPointsJson, .writeFile (.solutionPvd 0)] }

/-- One iteration of the time-stepping loop, at loop index `n`:
`dt.assign(times[n+1] - times[n])`; `t.assign(times[n+1])` (updating the
source term); `solve(R == 0, u, bc, J=jac)`; write the step's `.pvd` file;
sample `u` at every evaluation point; `u_n.assign(u)`. -/
def loopStep (E : Ext) (D : EvalPoints) (st : DriverState) (n : ℕ) : DriverState :=
  let t_prev := D.times.getD n 0
  let t_curr := D.times.getD (n + 1) 0
  let st := { st with dt := t_curr - t_prev }
  let st := { st with t := t_curr }
  let u' := E.solve { dt := st.dt, t := st.t, u_n := st.u_n } bc
  let st := { st with u := u', events := st.events ++ [Event.solveCall] }
  let st := { st with events := st.events ++ [Event.writeFile (.solutionPvd (n + 1))] }
  let sol := D.mesh_coords.map (fun p => st.u p)
  let st := { st with sol_list := st.sol_list ++ [sol] }
  { st with u_n := st.u }

/-- The state after the first `n` iterations of `for n in range(nt_steps)`. -/
def runLoop (E : Ext) (D : EvalPoints) : ℕ → DriverState
  | 0 => initPhase E D
  | n + 1 => loopStep E D (runLoop E D n) n

/-- The solver cell (the first `#%%` cell) of the driver script: run all
`nt_steps = len(times) - 1` loop iterations, then
`json.dump(sol_list, ...)` into the solutions file. -/
def runDriver (E : Ext) (D : EvalPoints) : DriverState :=
  let st := runLoop E D (D.times.length - 1)
  { st with events := st.events ++ [.writeFile .evalSolutionsJson] }

/-- The contour-plot cell (the second `#%%` cell) of the driver script,
as its I/O trace: it re-reads the evaluation-points file, reads the
recorded solutions file `2D_Transient_Heat_eval_solutions.json` back,
and then, `for t in range(len(times))`, saves one contour figure
`sol_{t:04d}.png` (the `tricontourf`/colorbar rendering itself is
matplotlib's). -/
def contourCell (D : EvalPoints) : List Event :=
  [Event.readFile .evalPointsJson, Event.readFile .evalSolutionsJson]
    ++ (List.range D.times.length).map fun t => Event.writeFile (.contourPng t)

/-- The whole `2D_Transient_Heat_Ground_Truth.py` file: the solver cell
followed by the contour-plot cell. -/
def runScript (E : Ext) (D : EvalPoints) : DriverState :=
  let st := runDriver E D
  { st with events := st.events ++ contourCell D }

/-! ### Fallible variant

The same driver, with each external call allowed to fail: `load` models
`open`/`json.load` and the extraction of the input data (missing file,
malformed JSON), `solve` models a solver failure, and FEM functions are
`Pt → Option ℚ` so that point evaluation itself can fail (dolfin raises
when a point lies outside the mesh).  The script has no `try`/`except`,
so a failure aborts the run; the event trace records what happened before
the failure. -/

/-- A dolfin `Function` whose point evaluation can fail. -/
abbrev FEMFunE := Pt → Option ℚ

/-- The fallible external world: loading the input file, `exp`,
`interpolate`, and `solve`. -/
structure ExtE where
  load : Option EvalPoints
  exp : ℚ → ℚ
  interpolate : (Pt → ℚ) → FEMFunE
  solve : Residual FEMFunE → BC → Option FEMFunE

/-- `[u(Point(x, y)) for (x, y) in coords]`, failing if any evaluation fails. -/
def evalRow (u : FEMFunE) : List Pt → Option (List ℚ)
  | [] => some []
  | p :: ps => do pure ((← u p) :: (← evalRow u ps))

/-- The loop-carried state of the fallible driver. -/
structure StE where
  u_n : FEMFunE
  sol_list : List (List ℚ)

/-- A partial computation together with the events it emitted before
returning or failing. -/
abbrev TraceM (α : Type) := Option α × List Event

/-- One fallible loop iteration at index `n`: call the solver on the
Backward-Euler residual (recording the call), write the step's `.pvd`
file, sample the new solution at every evaluation point, and carry it as
the next `u_n`; a solver or evaluation failure aborts the iteration. -/
def stepE (E : ExtE) (D : EvalPoints) (n : ℕ) (st : StE) : TraceM StE :=
  match E.solve { dt := D.times.getD (n + 1) 0 - D.times.getD n 0,
                  t := D.times.getD (n + 1) 0, u_n := st.u_n } bc with
  | none => (none, [Event.solveCall])
  | some u' =>
    match evalRow u' D.mesh_coords with
    | none => (none, [Event.solveCall, Event.writeFile (.solutionPvd (n + 1))])
    | some sol =>
      (some { u_n := u', sol_list := st.sol_list ++ [sol] },
       [Event.solveCall, Event.writeFile (.solutionPvd (n + 1))])

/-- The first `n` fallible loop iterations, from state `st0`; once an
iteration fails, no further iteration runs. -/
def runLoopE (E : ExtE) (D : EvalPoints) (st0 : StE) : ℕ → TraceM StE
  | 0 => (some st0, [])
  | n + 1 =>
    match runLoopE E D st0 n with
    | (none, evs) => (none, evs)
    | (some st, evs) =>
      let r := stepE E D n st
      (r.1, evs ++ r.2)

/-- The whole fallible driver: load the input file, interpolate the
initial condition, write `solution_000.pvd`, sample the `t = 0` row, run
the loop, and only if everything succeeded `json.dump` the solutions
file.  Any failure propagates (there is no handler), and the dump event
is emitted only on the all-success path. -/
def runDriverE (E : ExtE) : TraceM (List (List ℚ)) :=
  match E.load with
  | none => (none, [Event.readFile .evalPointsJson])
  | some D =>
    let u_n0 := E.interpolate (u0exact E.exp)
    let ev0 := [Event.readFile .evalPointsJson, Event.writeFile (.solutionPvd 0)]
    match evalRow u_n0 D.mesh_coords with
    | none => (none, ev0)
    | some sol0 =>
      match runLoopE E D ⟨u_n0, [sol0]⟩ (D.times.length - 1) with
      | (none, evs) => (none, ev0 ++ evs)
      | (some st, evs) =>
        (some st.sol_list, ev0 ++ evs ++ [Event.writeFile .evalSolutionsJson])

end HeatRepo.GroundTruth

namespace HeatRepo.Plot

/-! ## `util/plot_time-error.py` — the comparison plotting script -/

/-- The slices of `PINNs_evaluation.json` the script uses: `arch` is a
dict from index key to architecture string (in insertion order), and
`times_total`, `times_eval`, `l2_rel` are dicts indexed by the same keys,
modelled as total lookup functions. -/
structure PinnsData where
  arch : List (String × String)
  times_total : String → ℚ
  times_eval : String → ℚ
  l2_rel : String → ℚ

/-- The slices of `FEM_results.json` the script uses: `mesh_nums` is a
list, and `l2_rel`, `times_solve`, `times_eval` are dicts keyed by
`str(idx)`. -/
structure FemData where
  mesh_nums : List ℕ
  l2_rel : String → ℚ
  times_solve : String → ℚ
  times_eval : String → ℚ

/-- One `plt.scatter(x, y, ..., label=...)` call: `x` is the relative L2
error, `y` the time, `label` the legend entry. -/
structure ScatterPoint where
  x : ℚ
  y : ℚ
  label : String

/-- The scatter calls of the first figure, in program order: for each
`(idx, architecture)` in `pinns_arch.items()`,
`scatter(pinns_l2_rel[idx], pinns_times_train[idx])`; then for each
`(idx, ns)` in `enumerate(fem_ns)`,
`scatter(fem_l2_rel[str(idx)], fem_times_solve[str(idx)])`. -/
def fig1Points (P : PinnsData) (F : FemData) : List ScatterPoint :=
  (P.arch.map fun ia =>
    { x := P.l2_rel ia.1, y := P.times_total ia.1, label := "PINNs, " ++ ia.2 })
  ++ (F.mesh_nums.enum.map fun p =>
    { x := F.l2_rel (toString p.1), y := F.times_solve (toString p.1),
      label := "FEM,    " ++ toString p.2 ++ "x" ++ toString p.2 })

/-- The scatter calls of the second figure: same entries, with each
entry's own evaluation time on the y-axis. -/
def fig2Points (P : PinnsData) (F : FemData) : List ScatterPoint :=
  (P.arch.map fun ia =>
    { x := P.l2_rel ia.1, y := P.times_eval ia.1, label := "PINNs, " ++ ia.2 })
  ++ (F.mesh_nums.enum.map fun p =>
    { x := F.l2_rel (toString p.1), y := F.times_eval (toString p.1),
      label := "FEM,    " ++ toString p.2 ++ "x" ++ toString p.2 })

/-- The outcome of running the plotting script on loaded data. -/
structure PlotResult where
  fig1 : List ScatterPoint
  fig2 : List ScatterPoint
  events : List Event

/-- The whole plotting script: the first cell reads the two result files
and saves `solving_time-error.png`; the second cell reads them again and
saves `evaluation_time-error.png`. -/
def plotTimeError (P : PinnsData) (F : FemData) : PlotResult :=
  { fig1 := fig1Points P F
    fig2 := fig2Points P F
    events := [Event.readFile .pinnsEvaluationJson, Event.readFile .femResultsJson,
               Event.writeFile .solvingTimeErrorPng,
               Event.readFile .pinnsEvaluationJson, Event.readFile .femResultsJson,
               Event.writeFile .evaluationTimeErrorPng] }

end HeatRepo.Plot

namespace HeatRepo.Poisson1D

/-! ## `test/1D_Poisson_JAX-FEM.py` — the locally defined `Mesh` class -/

/-- `np.linspace(a, b, n)`: `n` evenly spaced samples from `a` to `b`. -/
def linspace (a b : ℚ) (n : ℕ) : List ℚ :=
  (List.range n).map fun i => a + (b - a) * i / (n - 1)

/-- `self.points = np.linspace(0, 1, 5)`. -/
def points : List ℚ := linspace 0 1 5

/-- `self.cells = np.array([[0, 1], [1, 2], [2, 3], [3, 4], [4, 5]])`. -/
def cells : List (List ℕ) := [[0, 1], [1, 2], [2, 3], [3, 4], [4, 5]]

/-- The mesh invariant a finite-element problem needs: every node index
of every cell is a valid index into the point array. -/
def validMesh (pts : List ℚ) (cls : List (List ℕ)) : Prop :=
  ∀ c ∈ cls, ∀ i ∈ c, i < pts.length

instance : DecidablePred fun p : List ℚ × List (List ℕ) => validMesh p.1 p.2 :=
  fun _ => by unfold validMesh; infer_instance

end HeatRepo.Poisson1D

namespace HeatRepo.GroundTruth

/-! ### Concrete fixtures used to instantiate the theorems -/

/-- A concrete external world: identity `exp`, identity `interpolate`,
and a solver returning the zero function. -/
def extId : Ext :=
  { exp := id, interpolate := fun f => f, solve := fun _ _ => fun _ => 0 }

/-- A concrete input: one evaluation point, times `[0, 1]`. -/
def evalPts01 : EvalPoints := { mesh_coords := [(0, 0)], times := [0, 1] }

/-- A concrete fallible external world whose input load fails. -/
def extFail : ExtE :=
  { load := none
    exp := id
    interpolate := fun f p => some (f p)
    solve := fun _ _ => none }

end HeatRepo.GroundTruth

namespace HeatRepo.GenEval

/-! ### Helper lemmas about `generate_eval_mesh` -/

lemma flatMap_range_map_length {α : Type} (m k : ℕ) (g : ℕ → ℕ → α) :
    ((List.range m).flatMap fun i => (List.range k).map (g i)).length = m * k := by
  rw [List.length_flatMap]
  simp only [Function.comp_def, List.length_map, List.length_range]
  rw [List.map_const', List.sum_replicate, List.length_range, smul_eq_mul]

lemma flatMap_range_map_getElem {α : Type} (k : ℕ) (g : ℕ → ℕ → α) :
    ∀ m i j : ℕ, i < m → j < k →
      ((List.range m).flatMap fun i => (List.range k).map (g i))[i * k + j]? = some (g i j) := by
  intro m
  induction m with
  | zero => intro i j hi _; omega
  | succ m ih =>
    intro i j hi hj
    rw [List.range_succ, List.flatMap_append]
    rcases Nat.lt_or_ge i m with hlt | hge
    · have hb : i * k + j < ((List.range m).flatMap fun i => (List.range k).map (g i)).length := by
        rw [flatMap_range_map_length]
        calc i * k + j < i * k + k := by omega
          _ = (i + 1) * k := by ring
          _ ≤ m * k := Nat.mul_le_mul_right k hlt
      rw [List.getElem?_append_left hb]
      exact ih i j hlt hj
    · have hi' : i = m := by omega
      subst hi'
      rw [List.getElem?_append_right]
      · rw [flatMap_range_map_length]
        simp only [List.flatMap_cons, List.flatMap_nil, List.append_nil]
        have : i * k + j - i * k = j := by omega
        rw [this, List.getElem?_map, List.getElem?_range hj, Option.map_some']
      · rw [flatMap_range_map_length]; omega

lemma mem_mesh_coords_iff {nx ny : ℕ} {p : ℚ × ℚ} :
    p ∈ mesh_coords nx ny ↔
      ∃ i : ℕ, i ≤ nx ∧ ∃ j : ℕ, j ≤ ny ∧ p = ((i : ℚ) * dx nx, (j : ℚ) * dx nx) := by
  unfold mesh_coords
  constructor
  · intro hp
    rcases List.mem_flatMap.mp hp with ⟨i, hi, hmem⟩
    rcases List.mem_map.mp hmem with ⟨j, hj, rfl⟩
    exact ⟨i, Nat.lt_succ_iff.mp (List.mem_range.mp hi),
           j, Nat.lt_succ_iff.mp (List.mem_range.mp hj), rfl⟩
  · rintro ⟨i, hi, j, hj, rfl⟩
    have hj' : ((i : ℚ) * dx nx, (j : ℚ) * dx nx)
        ∈ (List.range (ny + 1)).map (fun j : ℕ => ((i : ℚ) * dx nx, (j : ℚ) * dx nx)) :=
      List.mem_map_of_mem _ (List.mem_range.mpr (Nat.lt_succ_of_le hj))
    exact List.mem_flatMap.mpr ⟨i, List.mem_range.mpr (Nat.lt_succ_of_le hi), hj'⟩

end HeatRepo.GenEval

namespace HeatRepo.GroundTruthLemmas

/-! ### Helper lemmas about the driver -/

open HeatRepo.GroundTruth

/-- Unfolding one loop iteration: the solution list grows by exactly the
row sampled from the newly solved function. -/
lemma runLoop_sol_succ (E : Ext) (D : EvalPoints) (n : ℕ) :
    (runLoop E D (n + 1)).sol_list =
      (runLoop E D n).sol_list ++
        [D.mesh_coords.map
          (E.solve { dt := D.times.getD (n + 1) 0 - D.times.getD n 0,
                     t := D.times.getD (n + 1) 0,
                     u_n := (runLoop E D n).u_n } bc)] := rfl

/-- Unfolding one loop iteration: the event trace grows by exactly one
solver call and one `.pvd` write. -/
lemma runLoop_events_succ (E : Ext) (D : EvalPoints) (n : ℕ) :
    (runLoop E D (n + 1)).events =
      (runLoop E D n).events ++ [Event.solveCall]
        ++ [Event.writeFile (.solutionPvd (n + 1))] := rfl

lemma count_solve_write (f : FileName) :
    [Event.writeFile f].count Event.solveCall = 0 := rfl

lemma runLoop_sol_cons (E : Ext) (D : EvalPoints) :
    ∀ n, ∃ rest, (runLoop E D n).sol_list =
      (D.mesh_coords.map (E.interpolate (u0exact E.exp))) :: rest
  | 0 => ⟨[], rfl⟩
  | n + 1 => by
    obtain ⟨rest, hr⟩ := runLoop_sol_cons E D n
    refine ⟨rest ++ [D.mesh_coords.map
      (E.solve { dt := D.times.getD (n + 1) 0 - D.times.getD n 0,
                 t := D.times.getD (n + 1) 0,
                 u_n := (runLoop E D n).u_n } bc)], ?_⟩
    rw [runLoop_sol_succ, hr]
    rfl

lemma runLoop_sol_length (E : Ext) (D : EvalPoints) :
    ∀ n, (runLoop E D n).sol_list.length = n + 1
  | 0 => rfl
  | n + 1 => by
    rw [runLoop_sol_succ, List.length_append, runLoop_sol_length E D n]
    rfl

lemma runLoop_rows (E : Ext) (D : EvalPoints) :
    ∀ n, ∀ r ∈ (runLoop E D n).sol_list, ∃ g : Pt → ℚ, r = D.mesh_coords.map g
  | 0 => by
    intro r hr
    rcases List.mem_singleton.mp hr with rfl
    exact ⟨E.interpolate (u0exact E.exp), rfl⟩
  | n + 1 => by
    intro r hr
    rw [runLoop_sol_succ] at hr
    rcases List.mem_append.mp hr with h | h
    · exact runLoop_rows E D n r h
    · rcases List.mem_singleton.mp h with rfl
      exact ⟨_, rfl⟩

lemma runLoop_count (E : Ext) (D : EvalPoints) :
    ∀ n, (runLoop E D n).events.count Event.solveCall = n
  | 0 => rfl
  | n + 1 => by
    rw [runLoop_events_succ, List.count_append, List.count_append,
      runLoop_count E D n, count_solve_write]
    rfl

lemma runLoop_reads (E : Ext) (D : EvalPoints) :
    ∀ n, (runLoop E D n).events.filter Event.isRead = [Event.readFile .evalPointsJson]
  | 0 => rfl
  | n + 1 => by
    rw [runLoop_events_succ, List.filter_append, List.filter_append,
      runLoop_reads E D n]
    rfl

lemma runLoop_no_sol_write (E : Ext) (D : EvalPoints) :
    ∀ n, (runLoop E D n).events.filter
      (fun e => e.writeTarget == some FileName.evalSolutionsJson) = []
  | 0 => rfl
  | n + 1 => by
    rw [runLoop_events_succ, List.filter_append, List.filter_append,
      runLoop_no_sol_write E D n]
    rfl

/-- The contour cell's PNG writes survive no read filter. -/
lemma contour_reads (D : EvalPoints) :
    (contourCell D).filter Event.isRead
      = [Event.readFile .evalPointsJson, Event.readFile .evalSolutionsJson] := by
  unfold contourCell
  rw [List.filter_append, List.filter_map]
  have h : (List.range D.times.length).filter
      (Event.isRead ∘ fun t => Event.writeFile (FileName.contourPng t)) = [] :=
    List.filter_eq_nil_iff.mpr (fun a _ => by simp [Event.isRead, Function.comp])
  rw [h]
  rfl

/-- The contour cell never writes the solutions JSON (its only writes
are the per-step contour PNGs). -/
lemma contour_no_sol_write (D : EvalPoints) :
    (contourCell D).filter
      (fun e => e.writeTarget == some FileName.evalSolutionsJson) = [] := by
  unfold contourCell
  rw [List.filter_append, List.filter_map]
  have h : (List.range D.times.length).filter
      ((fun e => e.writeTarget == some FileName.evalSolutionsJson)
        ∘ fun t => Event.writeFile (FileName.contourPng t)) = [] :=
    List.filter_eq_nil_iff.mpr
      (fun a _ => by simp [Event.writeTarget, Function.comp])
  rw [h]
  rfl

end HeatRepo.GroundTruthLemmas

namespace HeatRepo.GenEval

/-! ### More helper lemmas: the `y`-coordinate bug and the time grid -/

lemma mesh_coords_snd_le {nx ny : ℕ} (hx : 1 ≤ nx) :
    ∀ p ∈ mesh_coords nx ny, p.2 ≤ (ny : ℚ) / nx := by
  intro p hp
  rcases mem_mesh_coords_iff.mp hp with ⟨i, _, j, hj, rfl⟩
  show (j : ℚ) * dx nx ≤ (ny : ℚ) / nx
  rw [dx, mul_one_div]
  have hnx : (0 : ℚ) < nx := by exact_mod_cast Nat.lt_of_lt_of_le Nat.zero_lt_one hx
  exact (div_le_div_iff_of_pos_right hnx).mpr (by exact_mod_cast hj)

lemma mesh_coords_top_mem (nx ny : ℕ) :
    ((nx : ℚ) * dx nx, (ny : ℚ) / nx) ∈ mesh_coords nx ny := by
  refine mem_mesh_coords_iff.mpr ⟨nx, le_refl nx, ny, le_refl ny, ?_⟩
  simp [dx, mul_one_div, div_eq_mul_inv]

lemma nt_toNat_of_pos {dtv : ℚ} (h : 0 < dtv) :
    (nt dtv).toNat = (⌊1 / dtv⌋).toNat + 1 := by
  unfold nt pyInt
  have h1 : 0 ≤ 1 / dtv := by positivity
  rw [if_pos h1]
  have h2 : 0 ≤ ⌊1 / dtv⌋ := Int.floor_nonneg.mpr h1
  omega

lemma times_pairwise {dtv : ℚ} (h : 0 < dtv) (n : ℕ) :
    ((List.range n).map fun k : ℕ => (k : ℚ) * dtv).Pairwise (· < ·) := by
  rw [List.pairwise_map]
  refine (List.pairwise_lt_range n).imp ?_
  intro a b hab
  exact mul_lt_mul_of_pos_right (by exact_mod_cast hab) h

end HeatRepo.GenEval

namespace HeatRepo.ParseLemmas

/-! ### The driver's load of a `generate_eval_mesh` file -/

open HeatRepo.GenEval HeatRepo.GroundTruth

lemma parseList_pointJson : ∀ l : List (ℚ × ℚ),
    parseList parsePoint (l.map pointJson) = some l
  | [] => rfl
  | p :: ps => by
    simp [parseList, parsePoint, pointJson, Json.asNum, parseList_pointJson ps]

lemma parseList_timesJson (g : ℕ → ℚ) : ∀ ks : List ℕ,
    parseList parseTime (ks.map fun k => Json.arr [Json.num (g k)]) = some (ks.map g)
  | [] => rfl
  | k :: ks => by
    simp [parseList, parseTime, Json.asNum, parseList_timesJson g ks]

/-- Round trip: the driver's extraction succeeds on exactly the data
`generate_eval_mesh` serialized. -/
lemma driverLoad_generate (nx ny : ℕ) (dtv : ℚ) :
    driverLoad (generate_eval_mesh nx ny dtv) =
      some { mesh_coords := mesh_coords nx ny,
             times := (List.range (nt dtv).toNat).map fun k : ℕ => (k : ℚ) * dtv } := by
  unfold driverLoad generate_eval_mesh dt_coords
  rw [List.map_map]
  have h2 : parseList parseTime
      ((List.range (nt dtv).toNat).map
        ((fun l : List ℚ => Json.arr (l.map .num)) ∘ fun k : ℕ => [(k : ℚ) * dtv]))
      = some ((List.range (nt dtv).toNat).map fun k : ℕ => (k : ℚ) * dtv) := by
    have h := parseList_timesJson (fun k : ℕ => (k : ℚ) * dtv) (List.range (nt dtv).toNat)
    convert h using 2
  simp [Json.getKey, List.find?, Json.asArr, parseList_pointJson, h2]

end HeatRepo.ParseLemmas

namespace HeatRepo.FallibleLemmas

/-! ### Helper lemmas about the fallible driver -/

open HeatRepo.GroundTruth

lemma stepE_events_cases (E : ExtE) (D : EvalPoints) (n : ℕ) (st : StE) :
    (stepE E D n st).2 = [Event.solveCall] ∨
    (stepE E D n st).2 = [Event.solveCall, Event.writeFile (.solutionPvd (n + 1))] := by
  unfold stepE
  split
  · exact Or.inl rfl
  · split
    · exact Or.inr rfl
    · exact Or.inr rfl

lemma runLoopE_events_shape (E : ExtE) (D : EvalPoints) (st0 : StE) :
    ∀ n, ∀ e ∈ (runLoopE E D st0 n).2,
      e = Event.solveCall ∨ ∃ k, e = Event.writeFile (.solutionPvd k)
  | 0 => by intro e he; simp [runLoopE] at he
  | n + 1 => by
    intro e he
    rcases hr : runLoopE E D st0 n with ⟨r, evs⟩
    rcases r with _ | st
    · rw [runLoopE, hr] at he
      have ih := runLoopE_events_shape E D st0 n e
      rw [hr] at ih
      exact ih he
    · rw [runLoopE, hr] at he
      rcases List.mem_append.mp he with h | h
      · have ih := runLoopE_events_shape E D st0 n e
        rw [hr] at ih
        exact ih h
      · rcases stepE_events_cases E D n st with hc | hc <;> rw [hc] at h
        · rcases List.mem_singleton.mp h with rfl
          exact Or.inl rfl
        · rcases h with _ | ⟨_, h⟩
          · exact Or.inl rfl
          · rcases List.mem_singleton.mp h with rfl
            exact Or.inr ⟨n + 1, rfl⟩

end HeatRepo.FallibleLemmas

namespace HeatRepo

/-! ## The claims -/

open GroundTruth GroundTruthLemmas

/-- **C1.** For every time step `n` with `0 ≤ n < len(times) - 1`, the
ground-truth driver loop performs exactly these steps in order: assign
`dt := times[n+1] - times[n]`, assign `t := times[n+1]` (which updates the
source term carried by the residual), call the solver on the
Backward-Euler residual with the homogeneous Dirichlet boundary condition
applied, sample the new solution `u` at every evaluation point in
`mesh_coords`, and finally assign `u_n := u`; the full record equality
shows the loop body performs no other state update and no failure
handling.  (`getD` never uses its default here since `hn` keeps all
indices in bounds.) -/
theorem claim_C1_loop_body (E : Ext) (D : EvalPoints) (n : ℕ)
    (hn : n < D.times.length - 1) :
    runLoop E D (n + 1) =
      { t := D.times.getD (n + 1) 0
        dt := D.times.getD (n + 1) 0 - D.times.getD n 0
        u := E.solve { dt := D.times.getD (n + 1) 0 - D.times.getD n 0,
                       t := D.times.getD (n + 1) 0,
                       u_n := (runLoop E D n).u_n } bc
        u_n := E.solve { dt := D.times.getD (n + 1) 0 - D.times.getD n 0,
                         t := D.times.getD (n + 1) 0,
                         u_n := (runLoop E D n).u_n } bc
        sol_list := (runLoop E D n).sol_list ++
          [D.mesh_coords.map
            (E.solve { dt := D.times.getD (n + 1) 0 - D.times.getD n 0,
                       t := D.times.getD (n + 1) 0,
                       u_n := (runLoop E D n).u_n } bc)]
        events := (runLoop E D n).events ++
          [Event.solveCall, Event.writeFile (.solutionPvd (n + 1))] } := by
  have h : runLoop E D (n + 1) =
      { t := D.times.getD (n + 1) 0
        dt := D.times.getD (n + 1) 0 - D.times.getD n 0
        u := E.solve { dt := D.times.getD (n + 1) 0 - D.times.getD n 0,
                       t := D.times.getD (n + 1) 0,
                       u_n := (runLoop E D n).u_n } bc
        u_n := E.solve { dt := D.times.getD (n + 1) 0 - D.times.getD n 0,
                         t := D.times.getD (n + 1) 0,
                         u_n := (runLoop E D n).u_n } bc
        sol_list := (runLoop E D n).sol_list ++
          [D.mesh_coords.map
            (E.solve { dt := D.times.getD (n + 1) 0 - D.times.getD n 0,
                       t := D.times.getD (n + 1) 0,
                       u_n := (runLoop E D n).u_n } bc)]
        events := (runLoop E D n).events ++ [Event.solveCall]
          ++ [Event.writeFile (.solutionPvd (n + 1))] } := rfl
  rw [h, List.append_assoc, List.singleton_append]

/-- Witness for C1 at the concrete fixture, `n = 0`. -/
theorem claim_C1_loop_body_witness :
    0 < evalPts01.times.length - 1 ∧
    runLoop extId evalPts01 (0 + 1) =
      { t := evalPts01.times.getD (0 + 1) 0
        dt := evalPts01.times.getD (0 + 1) 0 - evalPts01.times.getD 0 0
        u := extId.solve { dt := evalPts01.times.getD (0 + 1) 0 - evalPts01.times.getD 0 0,
                           t := evalPts01.times.getD (0 + 1) 0,
                           u_n := (runLoop extId evalPts01 0).u_n } bc
        u_n := extId.solve { dt := evalPts01.times.getD (0 + 1) 0 - evalPts01.times.getD 0 0,
                             t := evalPts01.times.getD (0 + 1) 0,
                             u_n := (runLoop extId evalPts01 0).u_n } bc
        sol_list := (runLoop extId evalPts01 0).sol_list ++
          [evalPts01.mesh_coords.map
            (extId.solve { dt := evalPts01.times.getD (0 + 1) 0 - evalPts01.times.getD 0 0,
                           t := evalPts01.times.getD (0 + 1) 0,
                           u_n := (runLoop extId evalPts01 0).u_n } bc)]
        events := (runLoop extId evalPts01 0).events ++
          [Event.solveCall, Event.writeFile (.solutionPvd (0 + 1))] } :=
  ⟨by decide, claim_C1_loop_body extId evalPts01 0 (by decide)⟩

/-- **C2.** After the driver completes, the recorded solution list has
exactly `len(times)` rows, and every row has one value per evaluation
point, in the order of `mesh_coords` (each row is a `map` over
`mesh_coords`), for every input with non-empty `times`. -/
theorem claim_C2_solution_shape (E : Ext) (D : EvalPoints) (h : D.times ≠ []) :
    (runDriver E D).sol_list.length = D.times.length ∧
    ∀ r ∈ (runDriver E D).sol_list,
      r.length = D.mesh_coords.length ∧ ∃ g : Pt → ℚ, r = D.mesh_coords.map g := by
  have hs : (runDriver E D).sol_list = (runLoop E D (D.times.length - 1)).sol_list := rfl
  constructor
  · rw [hs, runLoop_sol_length]
    have h1 : 0 < D.times.length := List.length_pos.mpr h
    omega
  · intro r hr
    rw [hs] at hr
    obtain ⟨g, rfl⟩ := runLoop_rows E D _ r hr
    exact ⟨by simp, g, rfl⟩

/-- Witness for C2 at the concrete fixture. -/
theorem claim_C2_solution_shape_witness :
    evalPts01.times ≠ [] ∧
    ((runDriver extId evalPts01).sol_list.length = evalPts01.times.length ∧
     ∀ r ∈ (runDriver extId evalPts01).sol_list,
       r.length = evalPts01.mesh_coords.length ∧
         ∃ g : Pt → ℚ, r = evalPts01.mesh_coords.map g) :=
  ⟨by decide, claim_C2_solution_shape extId evalPts01 (by decide)⟩

/-- **C3.** The first recorded row is the interpolated initial condition
`u_0(x,y) = exp(-50*((x-0.5)^2+(y-0.5)^2))` sampled at every evaluation
point, computed before any solver call (the right-hand side does not
mention `E.solve`, and the pre-loop phase records no solver event). -/
theorem claim_C3_initial_row (E : Ext) (D : EvalPoints) :
    (runDriver E D).sol_list.head? =
      some (D.mesh_coords.map (E.interpolate (u0exact E.exp))) ∧
    (initPhase E D).sol_list = [D.mesh_coords.map (E.interpolate (u0exact E.exp))] ∧
    Event.solveCall ∉ (initPhase E D).events := by
  refine ⟨?_, rfl, ?_⟩
  · have hs : (runDriver E D).sol_list = (runLoop E D (D.times.length - 1)).sol_list := rfl
    rw [hs]
    obtain ⟨rest, hr⟩ := runLoop_sol_cons E D (D.times.length - 1)
    rw [hr]
    rfl
  · show Event.solveCall ∉ [Event.readFile .evalPointsJson, Event.writeFile (.solutionPvd 0)]
    decide

/-- **C4 (counterexample to the claim as stated).**  The driver script
does not load exactly its eval-points file: its second cell also reads
the solutions JSON back (and re-reads the eval-points file), so on a
concrete input the whole script's read trace contains
`2D_Transient_Heat_eval_solutions.json` and differs from the single
eval-points read the claim implies. -/
theorem claim_C4_counterexample :
    Event.readFile FileName.evalSolutionsJson ∈ (runScript extId evalPts01).events ∧
    (runScript extId evalPts01).events.filter Event.isRead
      ≠ [Event.readFile .evalPointsJson] := by
  constructor
  · decide
  · decide

/-- **C4 (amended).** End-to-end I/O of the pipeline: the solver cell of
the driver reads exactly its eval-points file; the whole driver script
additionally re-reads the eval-points file and reads back its own
solutions JSON in the contour-plot cell; the driver's only write of the
solutions JSON is the final dump of the solver cell; and the plotting
script reads exactly the two result files (each once per cell) and
writes exactly the two figure files. -/
theorem claim_C4_pipeline_io (E : Ext) (D : EvalPoints)
    (P : Plot.PinnsData) (F : Plot.FemData) :
    (runDriver E D).events.filter Event.isRead = [Event.readFile .evalPointsJson] ∧
    (runScript E D).events.filter Event.isRead
      = [Event.readFile .evalPointsJson, Event.readFile .evalPointsJson,
         Event.readFile .evalSolutionsJson] ∧
    (runScript E D).events.filter
        (fun e => e.writeTarget == some FileName.evalSolutionsJson)
      = [Event.writeFile .evalSolutionsJson] ∧
    (Plot.plotTimeError P F).events.filter Event.isRead
      = [Event.readFile .pinnsEvaluationJson, Event.readFile .femResultsJson,
         Event.readFile .pinnsEvaluationJson, Event.readFile .femResultsJson] ∧
    (Plot.plotTimeError P F).events.filter Event.isWrite
      = [Event.writeFile .solvingTimeErrorPng, Event.writeFile .evaluationTimeErrorPng] := by
  have he : (runDriver E D).events
      = (runLoop E D (D.times.length - 1)).events
          ++ [Event.writeFile .evalSolutionsJson] := rfl
  have hs : (runScript E D).events = (runDriver E D).events ++ contourCell D := rfl
  have hdr : (runDriver E D).events.filter Event.isRead
      = [Event.readFile .evalPointsJson] := by
    rw [he, List.filter_append, runLoop_reads]
    rfl
  have hdw : (runDriver E D).events.filter
      (fun e => e.writeTarget == some FileName.evalSolutionsJson)
      = [Event.writeFile .evalSolutionsJson] := by
    rw [he, List.filter_append, runLoop_no_sol_write]
    rfl
  refine ⟨hdr, ?_, ?_, rfl, rfl⟩
  · rw [hs, List.filter_append, hdr, contour_reads]
    rfl
  · rw [hs, List.filter_append, hdw, contour_no_sol_write]
    rfl

/-- **C5.** No script installs an exception handler, so in the fallible
model a failure anywhere (input load, solver, point evaluation)
propagates as `none`; whenever the run fails, the solutions file is never
among the written files — the output state is unchanged on error. -/
theorem claim_C5_no_write_on_error (E : ExtE) (h : (runDriverE E).1 = none) :
    Event.writeFile FileName.evalSolutionsJson ∉ (runDriverE E).2 := by
  rcases hl : E.load with _ | D
  · simp only [runDriverE, hl]
    decide
  · simp only [runDriverE, hl] at h ⊢
    rcases hev : evalRow (E.interpolate (u0exact E.exp)) D.mesh_coords with _ | sol0
    · simp only [hev]
      decide
    · simp only [hev] at h ⊢
      rcases hlp : runLoopE E D ⟨E.interpolate (u0exact E.exp), [sol0]⟩
          (D.times.length - 1) with ⟨r, evs⟩
      rcases r with _ | st
      · simp only [hlp]
        intro hmem
        rcases List.mem_append.mp hmem with hm | hm
        · simp at hm
        · have hshape := FallibleLemmas.runLoopE_events_shape E D
            ⟨E.interpolate (u0exact E.exp), [sol0]⟩ (D.times.length - 1)
            (Event.writeFile FileName.evalSolutionsJson)
          rw [hlp] at hshape
          rcases hshape hm with hc | ⟨k, hc⟩
          · exact absurd hc (by decide)
          · exact absurd hc (by simp)
      · simp only [hlp] at h
        exact absurd h (by simp)

/-- Witness for C5: a world whose input load fails. -/
theorem claim_C5_no_write_on_error_witness :
    (runDriverE extFail).1 = none ∧
    Event.writeFile FileName.evalSolutionsJson ∉ (runDriverE extFail).2 :=
  ⟨rfl, claim_C5_no_write_on_error extFail rfl⟩

/-- **C6.** The driver is a deterministic sequential procedure: two runs
on the same input data with the same (deterministic) external solver are
equal, and each run calls the solver exactly `len(times) - 1` times. -/
theorem claim_C6_two_run_determinism (E : Ext) (D : EvalPoints) (h : D.times ≠ [])
    (out1 out2 : DriverState)
    (h1 : out1 = runDriver E D) (h2 : out2 = runDriver E D) :
    out1 = out2 ∧ out1.events.count Event.solveCall = D.times.length - 1 := by
  subst h1; subst h2
  refine ⟨rfl, ?_⟩
  have he : (runDriver E D).events
      = (runLoop E D (D.times.length - 1)).events
          ++ [Event.writeFile .evalSolutionsJson] := rfl
  rw [he, List.count_append, runLoop_count, count_solve_write]
  omega

/-- Witness for C6 at the concrete fixture. -/
theorem claim_C6_two_run_determinism_witness :
    evalPts01.times ≠ [] ∧
    (runDriver extId evalPts01 = runDriver extId evalPts01 ∧
     (runDriver extId evalPts01).events.count Event.solveCall
       = evalPts01.times.length - 1) :=
  ⟨by decide, claim_C6_two_run_determinism extId evalPts01 (by decide) _ _ rfl rfl⟩

/-- **C7.** The plotting script pairs each entry's relative L2 error with
that same entry's time: the first figure's scatter points are exactly the
PINNs entries `(l2_rel[idx], times_total[idx])` followed by the FEM
entries `(l2_rel[str(idx)], times_solve[str(idx)])`, the second figure
uses each entry's own evaluation time, the only files written are the two
PNGs, and every plotted point's coordinates come from a single entry. -/
theorem claim_C7_plot_pairing (P : Plot.PinnsData) (F : Plot.FemData) :
    ((Plot.plotTimeError P F).fig1 =
      (P.arch.map fun ia =>
        { x := P.l2_rel ia.1, y := P.times_total ia.1, label := "PINNs, " ++ ia.2 })
      ++ (F.mesh_nums.enum.map fun p =>
        { x := F.l2_rel (toString p.1), y := F.times_solve (toString p.1),
          label := "FEM,    " ++ toString p.2 ++ "x" ++ toString p.2 })) ∧
    ((Plot.plotTimeError P F).fig2 =
      (P.arch.map fun ia =>
        { x := P.l2_rel ia.1, y := P.times_eval ia.1, label := "PINNs, " ++ ia.2 })
      ++ (F.mesh_nums.enum.map fun p =>
        { x := F.l2_rel (toString p.1), y := F.times_eval (toString p.1),
          label := "FEM,    " ++ toString p.2 ++ "x" ++ toString p.2 })) ∧
    ((Plot.plotTimeError P F).events.filter Event.isWrite
      = [Event.writeFile .solvingTimeErrorPng, Event.writeFile .evaluationTimeErrorPng]) ∧
    (∀ pt ∈ (Plot.plotTimeError P F).fig1,
      (∃ s, (∃ a, (s, a) ∈ P.arch) ∧ pt.x = P.l2_rel s ∧ pt.y = P.times_total s) ∨
      (∃ i : ℕ, i < F.mesh_nums.length ∧
        pt.x = F.l2_rel (toString i) ∧ pt.y = F.times_solve (toString i))) ∧
    (∀ pt ∈ (Plot.plotTimeError P F).fig2,
      (∃ s, (∃ a, (s, a) ∈ P.arch) ∧ pt.x = P.l2_rel s ∧ pt.y = P.times_eval s) ∨
      (∃ i : ℕ, i < F.mesh_nums.length ∧
        pt.x = F.l2_rel (toString i) ∧ pt.y = F.times_eval (toString i))) := by
  refine ⟨rfl, rfl, rfl, ?_, ?_⟩
  · intro pt hpt
    rcases List.mem_append.mp hpt with hmem | hmem
    · rcases List.mem_map.mp hmem with ⟨ia, hia, rfl⟩
      exact Or.inl ⟨ia.1, ⟨ia.2, hia⟩, rfl, rfl⟩
    · rcases List.mem_map.mp hmem with ⟨p, hp, rfl⟩
      exact Or.inr ⟨p.1, List.fst_lt_of_mem_enum hp, rfl, rfl⟩
  · intro pt hpt
    rcases List.mem_append.mp hpt with hmem | hmem
    · rcases List.mem_map.mp hmem with ⟨ia, hia, rfl⟩
      exact Or.inl ⟨ia.1, ⟨ia.2, hia⟩, rfl, rfl⟩
    · rcases List.mem_map.mp hmem with ⟨p, hp, rfl⟩
      exact Or.inr ⟨p.1, List.fst_lt_of_mem_enum hp, rfl, rfl⟩

/-- **C8.** `generate_eval_mesh` produces `(nx+1)*(ny+1)` points, the
point for loop indices `(i, j)` is `(i * (1/nx), j * (1/nx))` — the
`y`-coordinate uses the `x` step `1/nx`, not `1/ny` — every generated
`y`-coordinate is at most `ny/nx`, that bound is attained, and it equals
`1` exactly when `nx = ny`, so the points cover `[0,1] × [0,1]` only in
that case. -/
theorem claim_C8_mesh_y_uses_dx (nx ny : ℕ) (dtv : ℚ)
    (hx : 1 ≤ nx) (hy : 1 ≤ ny) (hdt : 0 < dtv) :
    (GenEval.mesh_coords nx ny).length = (nx + 1) * (ny + 1) ∧
    (∀ i j : ℕ, i ≤ nx → j ≤ ny →
      (GenEval.mesh_coords nx ny)[i * (ny + 1) + j]? =
        some ((i : ℚ) * (1 / nx), (j : ℚ) * (1 / nx))) ∧
    (∀ p ∈ GenEval.mesh_coords nx ny, p.2 ≤ (ny : ℚ) / nx) ∧
    ((nx : ℚ) * (1 / nx), (ny : ℚ) / nx) ∈ GenEval.mesh_coords nx ny ∧
    ((ny : ℚ) / nx = 1 ↔ nx = ny) := by
  have hnx0 : (nx : ℚ) ≠ 0 := Nat.cast_ne_zero.mpr (by omega)
  refine ⟨GenEval.flatMap_range_map_length (nx + 1) (ny + 1) _, ?_,
    GenEval.mesh_coords_snd_le hx, GenEval.mesh_coords_top_mem nx ny, ?_⟩
  · intro i j hi hj
    exact GenEval.flatMap_range_map_getElem (ny + 1)
      (fun i j : ℕ => ((i : ℚ) * GenEval.dx nx, (j : ℚ) * GenEval.dx nx))
      (nx + 1) i j (by omega) (by omega)
  · rw [div_eq_one_iff_eq hnx0]
    exact ⟨fun h => by exact_mod_cast h.symm, fun h => by exact_mod_cast h.symm⟩

/-- Witness for C8 at `nx = ny = 1`, `dt = 1`. -/
theorem claim_C8_mesh_y_uses_dx_witness :
    (1 ≤ 1 ∧ (0 : ℚ) < 1) ∧
    ((GenEval.mesh_coords 1 1).length = (1 + 1) * (1 + 1) ∧
     (∀ i j : ℕ, i ≤ 1 → j ≤ 1 →
       (GenEval.mesh_coords 1 1)[i * (1 + 1) + j]? =
         some ((i : ℚ) * (1 / (1 : ℕ)), (j : ℚ) * (1 / (1 : ℕ)))) ∧
     (∀ p ∈ GenEval.mesh_coords 1 1, p.2 ≤ ((1 : ℕ) : ℚ) / (1 : ℕ)) ∧
     (((1 : ℕ) : ℚ) * (1 / (1 : ℕ)), ((1 : ℕ) : ℚ) / (1 : ℕ)) ∈ GenEval.mesh_coords 1 1 ∧
     (((1 : ℕ) : ℚ) / (1 : ℕ) = 1 ↔ (1 : ℕ) = 1)) :=
  ⟨⟨le_refl 1, by decide⟩,
   claim_C8_mesh_y_uses_dx 1 1 1 (le_refl 1) (le_refl 1) (by decide)⟩

/-- **C9.** The locally defined `Mesh` of the 1D Poisson test has exactly
5 points while its last cell `[4, 5]` names node index 5, so indexing the
point array at 5 is out of bounds and the mesh violates the invariant
that every cell node is a valid point index. -/
theorem claim_C9_poisson_mesh_oob :
    Poisson1D.points.length = 5 ∧
    [4, 5] ∈ Poisson1D.cells ∧
    (5 : ℕ) ∈ ([4, 5] : List ℕ) ∧
    Poisson1D.points[5]? = none ∧
    ¬ Poisson1D.validMesh Poisson1D.points Poisson1D.cells := by
  refine ⟨rfl, by decide, by decide, rfl, ?_⟩
  intro h
  have h5 := h [4, 5] (by decide) 5 (by decide)
  rw [show Poisson1D.points.length = 5 from rfl] at h5
  omega

/-- **C10 (amended).** For every `nx`, `ny` and every `dt > 0`, the JSON
object written by `generate_eval_mesh` has exactly the shape the driver
consumes: the driver's extraction succeeds and returns the generated
coordinate pairs together with the times `k * dt` for
`k = 0 .. floor(1/dt)`; `dt_coord`'s `"0"` entry holds exactly
`floor(1/dt) + 1` singleton lists, and the unpacked times are strictly
increasing in `k`. -/
theorem claim_C10_json_round_trip (nx ny : ℕ) (dtv : ℚ) (hdt : 0 < dtv) :
    GroundTruth.driverLoad (GenEval.generate_eval_mesh nx ny dtv) =
      some { mesh_coords := GenEval.mesh_coords nx ny,
             times := (List.range ((⌊1 / dtv⌋).toNat + 1)).map
               fun k : ℕ => (k : ℚ) * dtv } ∧
    (GenEval.dt_coords dtv).length = (⌊1 / dtv⌋).toNat + 1 ∧
    (∀ l ∈ GenEval.dt_coords dtv, ∃ k : ℕ, l = [(k : ℚ) * dtv]) ∧
    ((List.range ((⌊1 / dtv⌋).toNat + 1)).map
      fun k : ℕ => (k : ℚ) * dtv).Pairwise (· < ·) := by
  have hnt := GenEval.nt_toNat_of_pos hdt
  refine ⟨?_, ?_, ?_, GenEval.times_pairwise hdt _⟩
  · rw [← hnt]
    exact ParseLemmas.driverLoad_generate nx ny dtv
  · simp [GenEval.dt_coords, hnt]
  · intro l hl
    rcases List.mem_map.mp hl with ⟨k, _, rfl⟩
    exact ⟨k, rfl⟩

/-- **C10 (counterexample to the unrestricted claim).**  The claim
quantifies over every `dt`, but at `dt = -2` the code emits one time
entry (`int(1/dt)` truncates `-0.5` toward zero, giving `nt = 1`) while
`floor(1/dt) + 1 = 0`, so the `dt_coord` list does not have
`floor(1/dt) + 1` entries. -/
theorem claim_C10_counterexample :
    ¬ (((GenEval.dt_coords (-2 : ℚ)).length : ℤ) = ⌊1 / (-2 : ℚ)⌋ + 1) := by
  have h3 : GenEval.nt (-2 : ℚ) = 1 := by
    unfold GenEval.nt GenEval.pyInt
    norm_num
  have hlen : (GenEval.dt_coords (-2 : ℚ)).length = 1 := by
    simp [GenEval.dt_coords, h3]
  rw [hlen]
  norm_num

/-- Witness for the amended C10 at `nx = ny = 1`, `dt = 1`. -/
theorem claim_C10_json_round_trip_witness :
    (0 : ℚ) < 1 ∧
    (GroundTruth.driverLoad (GenEval.generate_eval_mesh 1 1 1) =
       some { mesh_coords := GenEval.mesh_coords 1 1,
              times := (List.range ((⌊1 / (1 : ℚ)⌋).toNat + 1)).map
                fun k : ℕ => (k : ℚ) * 1 } ∧
     (GenEval.dt_coords 1).length = (⌊1 / (1 : ℚ)⌋).toNat + 1 ∧
     (∀ l ∈ GenEval.dt_coords 1, ∃ k : ℕ, l = [(k : ℚ) * 1]) ∧
     ((List.range ((⌊1 / (1 : ℚ)⌋).toNat + 1)).map
       fun k : ℕ => (k : ℚ) * 1).Pairwise (· < ·)) :=
  ⟨by decide, claim_C10_json_round_trip 1 1 1 (by decide)⟩

end HeatRepo
